import Mathlib

/-!
# srpmproc: the patch overlay engine of `internal/patch.go`

A shallow embedding of `srpmPatches`, `cfgPatches`, `applyPatches` and
`executePatches`, followed by theorems about them.

Modelling conventions.

* A `git.Worktree` is a filesystem together with a staging index.  The
  filesystem is keyed by the path string handed to it; the index is given by
  the paths it held at checkout (`tracked`) and, per path, the last staging
  mark put on it since (`index`).
* Staging can fail, as in go-git: `Add` on a path that is neither a file of
  the worktree nor in the index, `Remove` on a path that is not in the index.
  Creating and writing a file cannot fail on the modelled filesystem, so the
  `log.Fatalf` sites that guard `Create` and `Write` have no outcome.
* `log.Fatalf` ends the process.  A run therefore yields an `Outcome`:
  either `done s` or `fatal e s`, where `s` is the state of both trees at
  that moment.
* `log.Printf` lines are kept, in order, in the state's `log`.
* The third-party collaborators (`gitdiff.Parse`, the `gitdiff` applier,
  `prototext.Unmarshal`, `directives.Apply`, the outcome of init, fetch and
  the trees behind the fetched references) are parameters.
* Directories of the destination tree are not tracked: only the patch-scope
  tree is ever listed, and it is never written.
-/

namespace Srpmproc

/-! ## Strings and paths (Go standard library) -/

/-- Go `strings.HasPrefix`. -/
def hasPrefix (s pre : String) : Bool := pre.data.isPrefixOf s.data

/-- Go `strings.HasSuffix`. -/
def hasSuffix (s suf : String) : Bool := suf.data.isSuffixOf s.data

/-- Cut a path at every slash; the pieces may be empty. -/
def splitSlash : List Char → List (List Char)
  | [] => [[]]
  | c :: cs =>
    if c = '/' then [] :: splitSlash cs
    else
      match splitSlash cs with
      | [] => [[c]]
      | h :: t => (c :: h) :: t

/-- One step of Go `filepath.Clean` over the path elements seen so far
(`stack`, innermost first): empty and `.` elements are dropped, `..` removes
the element before it, or is kept when there is none to remove and the path
is not rooted. -/
def cleanPush (rooted : Bool) (stack : List (List Char)) (comp : List Char) :
    List (List Char) :=
  if comp = [] ∨ comp = ['.'] then stack
  else if comp = ['.', '.'] then
    match stack with
    | top :: rest => if top = ['.', '.'] then comp :: stack else rest
    | [] => if rooted then [] else [comp]
  else comp :: stack

/-- Put slashes between path elements. -/
def joinSlash : List (List Char) → List Char
  | [] => []
  | [c] => c
  | c :: cs => c ++ '/' :: joinSlash cs

/-- Go `filepath.Clean` (slash-separated paths). -/
def filepathClean (path : String) : String :=
  let rooted := path.data.head? = some '/'
  let comps := ((splitSlash path.data).foldl (cleanPush rooted) []).reverse
  let body := joinSlash comps
  if rooted then String.mk ('/' :: body)
  else if body = [] then "." else String.mk body

/-- Go `filepath.Join`: leading empty elements are ignored, the rest is joined
with slashes and cleaned. -/
def filepathJoin (elem : List String) : String :=
  match elem.dropWhile (fun e => e = "") with
  | [] => ""
  | e :: es => filepathClean (String.mk (joinSlash ((e :: es).map String.data)))

/-! ## Data model -/

/-- A path inside a tree. -/
abbrev Path := String

/-- The bytes of a file. -/
abbrev Content := String

/-- The fields of `gitdiff.File` that `srpmPatches` reads; the hunks are opaque
and only handed to the applier. -/
structure PatchedFile where
  OldName : String
  NewName : String
  IsNew : Bool
  IsDelete : Bool
  TextFragments : List String
  deriving DecidableEq, Repr

/-- A staging mark on a path. -/
inductive Mark where
  | added
  | removed
  deriving DecidableEq, Repr

/-- Modelled from the spec: the `billy.Filesystem` behind a worktree, whose
declaration is not part of the repository.  `files` gives the content of
the file at a path, `dirs` the entry names `ReadDir` lists for a directory
(in listing order). -/
structure Filesystem where
  files : Path → Option Content
  dirs : Path → Option (List String)

/-- `Filesystem.Stat` succeeds on files and on directories. -/
def Filesystem.Stat (fs : Filesystem) (p : Path) : Bool :=
  (fs.files p).isSome || (fs.dirs p).isSome

/-- `Filesystem.ReadDir`: the entry names, or failure. -/
def Filesystem.ReadDir (fs : Filesystem) (p : Path) : Option (List String) :=
  fs.dirs p

/-- `Filesystem.Open` followed by reading the whole file. -/
def Filesystem.Open (fs : Filesystem) (p : Path) : Option Content :=
  fs.files p

/-- `Filesystem.Remove` with its error dropped, as the caller does: the file at
`p` is gone afterwards, and removing an absent path changes nothing. -/
def Filesystem.Remove (fs : Filesystem) (p : Path) : Filesystem :=
  { fs with files := fun q => if q = p then none else fs.files q }

/-- `Filesystem.Create`: an empty file at `p`, truncating what was there.  The
call fails only on a path that is a directory; the directories of the
destination tree are not modelled, so it always succeeds. -/
def Filesystem.Create (fs : Filesystem) (p : Path) : Filesystem :=
  { fs with files := fun q => if q = p then some "" else fs.files q }

/-- `File.Write` on the handle of the file at `p`: the bytes are appended to
what the handle has written so far. -/
def Filesystem.Write (fs : Filesystem) (p : Path) (bytes : Content) : Filesystem :=
  { fs with files := fun q => if q = p then some (((fs.files p).getD "") ++ bytes)
                                else fs.files q }

/-- Modelled from the spec: a `git.Worktree`, whose declaration is not part of
the repository: the tree's files and its staging index (section 6: read,
create, write, remove, mark staged-added, mark staged-removed).  `tracked`
tells which paths the git index held when the tree was checked out, `index`
the staging mark put on a path since then. -/
structure Worktree where
  Filesystem : Filesystem
  tracked : Path → Bool
  index : Path → Option Mark

/-- Whether the git index has an entry for the path now: a path staged-added
has one, a path staged-removed has none, any other path has one when it was
tracked at checkout. -/
def Worktree.inIndex (w : Worktree) (p : Path) : Bool :=
  match w.index p with
  | some Mark.added => true
  | some Mark.removed => false
  | none => w.tracked p

/-- Modelled from the spec: `Worktree.Add` (section 6: mark the path
staged-added; section 7: a failed stage operation is fatal).  A path that is a
file of the worktree is staged-added.  A path that is no file but has an index
entry loses that entry, which stages its removal.  A path that is neither
cannot be staged and the call fails, as in go-git. -/
def Worktree.Add (w : Worktree) (p : Path) : Option Worktree :=
  if (w.Filesystem.files p).isSome then
    some { w with index := fun q => if q = p then some Mark.added else w.index q }
  else if w.inIndex p then
    some { w with index := fun q => if q = p then some Mark.removed else w.index q }
  else none

/-- Modelled from the spec: `Worktree.Remove` (section 6: mark the path
staged-removed; section 7: a failed stage operation is fatal).  A path with an
index entry loses the entry and its file; a path without one makes the call
fail, as in go-git. -/
def Worktree.Remove (w : Worktree) (p : Path) : Option Worktree :=
  if w.inIndex p then
    some { w with
      Filesystem := w.Filesystem.Remove p
      index := fun q => if q = p then some Mark.removed else w.index q }
  else none

/-- The two trees a run works on, and the lines printed so far. -/
structure State where
  patchTree : Worktree
  pushTree : Worktree
  log : List String

/-- The `log.Fatalf` sites that can be reached.  Creating and writing a file
cannot fail on the modelled filesystem, so the sites that guard `Create` and
`Write` are not listed. -/
inductive Fatal where
  /-- "could not walk patches" -/
  | couldNotWalkPatches
  /-- "could not open patch file %s" -/
  | couldNotOpenPatchFile (name : String)
  /-- "could not parse patch file" -/
  | couldNotParsePatchFile
  /-- "could not open patch subject" -/
  | couldNotOpenPatchSubject
  /-- "could not apply patch" -/
  | couldNotApplyPatch
  /-- "could not add file %s to git" -/
  | couldNotAddFile (path : String)
  /-- "could not remove file %s to git" -/
  | couldNotRemoveFile (path : String)
  /-- "could not open directive file %s" -/
  | couldNotOpenDirectiveFile (name : String)
  /-- "could not unmarshal cfg file" -/
  | couldNotUnmarshalCfg
  /-- "could not create new dist repo" -/
  | couldNotCreateDistRepo
  /-- "could not get dist worktree" -/
  | couldNotGetDistWorktree
  /-- "could not create remote" -/
  | couldNotCreateRemote
  /-- a fatal error raised inside `directives.Apply` -/
  | directive (msg : String)
  deriving DecidableEq, Repr

/-- How a run ends: normally, or in `log.Fatalf`; either way with the state
reached. -/
inductive Outcome where
  | done (s : State)
  | fatal (e : Fatal) (s : State)

/-- Sequencing: a fatal error stops the run. -/
def Outcome.andThen (o : Outcome) (f : State → Outcome) : Outcome :=
  match o with
  | Outcome.done s => f s
  | Outcome.fatal e s => Outcome.fatal e s

/-- The state a run ended in. -/
def Outcome.state : Outcome → State
  | Outcome.done s => s
  | Outcome.fatal _ s => s

/-- Whether a run ended normally. -/
def Outcome.isDone : Outcome → Bool
  | Outcome.done _ => true
  | Outcome.fatal _ _ => false

/-- The fatal error a run ended in, when it did. -/
def Outcome.error : Outcome → Option Fatal
  | Outcome.done _ => none
  | Outcome.fatal e _ => some e

/-- `log.Printf`. -/
def State.printf (s : State) (line : String) : State :=
  { s with log := s.log ++ [line] }

/-- The collaborators outside the repository. -/
structure Externals where
  /-- `gitdiff.Parse`: the file-change records of a patch file, or failure. -/
  parse : Content → Option (List PatchedFile)
  /-- `gitdiff.NewApplier(src).ApplyFile(dst, f)`: what is written to `dst`
  for the source content `src`, or failure. -/
  applyFile : Content → PatchedFile → Option Content
  /-- `srpmprocpb.Cfg`. -/
  Cfg : Type
  /-- `prototext.Unmarshal`. -/
  unmarshal : Content → Option Cfg
  /-- `directives.Apply(cfg, patchTree, pushTree)`. -/
  directivesApply : Cfg → State → Outcome

/-! ## `srpmPatches` -/

/-- The body of the loop over `files` in `srpmPatches` (lines 50 to 109): one
file-change record.  The fatal exits are those of lines 58 and 63 (reading
and patching the subject), 78 (patching the new file), 86 and 100 (staging
the written file) and 106 (staging the removal). -/
def applyPatchedFile (ext : Externals) (patchedFile : PatchedFile) (st : State) : Outcome :=
  let srcPath :=
    if !hasPrefix patchedFile.NewName "SPECS" then
      filepathJoin ["SOURCES", patchedFile.NewName]
    else patchedFile.NewName
  -- `output` is the `bytes.Buffer`, empty at first; `ApplyFile` appends to it
  let read : Except Fatal Content :=
    if !patchedFile.IsDelete && !patchedFile.IsNew then
      match st.pushTree.Filesystem.Open srcPath with
      | none => Except.error Fatal.couldNotOpenPatchSubject
      | some patchSubjectFile =>
        match ext.applyFile patchSubjectFile patchedFile with
        | none => Except.error Fatal.couldNotApplyPatch
        | some out => Except.ok ("" ++ out)
    else Except.ok ""
  match read with
  | Except.error e => Outcome.fatal e st
  | Except.ok output =>
    let oldName := filepathJoin ["SOURCES", patchedFile.OldName]
    let fs1 := (st.pushTree.Filesystem.Remove oldName).Remove srcPath
    if patchedFile.IsNew then
      let fs2 := fs1.Create srcPath
      let st2 := { st with pushTree := { st.pushTree with Filesystem := fs2 } }
      -- the applier reads from `newFile`, the file just created
      match ext.applyFile ((fs2.files srcPath).getD "") patchedFile with
      | none => Outcome.fatal Fatal.couldNotApplyPatch st2
      | some out =>
        let fs3 := fs2.Write srcPath (output ++ out)
        let st3 := { st with pushTree := { st.pushTree with Filesystem := fs3 } }
        match st3.pushTree.Add srcPath with
        | none => Outcome.fatal (Fatal.couldNotAddFile srcPath) st3
        | some push =>
          Outcome.done ({ st with pushTree := push }.printf ("git add " ++ srcPath))
    else if !patchedFile.IsDelete then
      let fs3 := (fs1.Create srcPath).Write srcPath output
      let st3 := { st with pushTree := { st.pushTree with Filesystem := fs3 } }
      match st3.pushTree.Add srcPath with
      | none => Outcome.fatal (Fatal.couldNotAddFile srcPath) st3
      | some push =>
        Outcome.done ({ st with pushTree := push }.printf ("git add " ++ srcPath))
    else
      let st3 := { st with pushTree := { st.pushTree with Filesystem := fs1 } }
      match st3.pushTree.Remove oldName with
      | none => Outcome.fatal (Fatal.couldNotRemoveFile oldName) st3
      | some push =>
        Outcome.done ({ st with pushTree := push }.printf ("git rm " ++ oldName))

/-- The loop `for _, patchedFile := range files`. -/
def applyPatchedFiles (ext : Externals) : List PatchedFile → State → Outcome
  | [], st => Outcome.done st
  | patchedFile :: rest, st =>
    (applyPatchedFile ext patchedFile st).andThen (applyPatchedFiles ext rest)

/-- The body of the loop over `infos` in `srpmPatches` (lines 32 to 116): one
directory entry, `name` being `info.Name()`.  The fatal exits are those of
lines 42 (opening), 46 (parsing) and 114 (staging the patch file's path on
the destination tree), besides those of the records. -/
def srpmPatchEntry (ext : Externals) (name : String) (st : State) : Outcome :=
  if !hasSuffix name ".patch" then Outcome.done st
  else
    let st1 := st.printf ("applying " ++ name)
    let filePath := filepathJoin ["ROCKY/SRPM", name]
    match st1.patchTree.Filesystem.Open filePath with
    | none => Outcome.fatal (Fatal.couldNotOpenPatchFile name) st1
    | some patch =>
      match ext.parse patch with
      | none => Outcome.fatal Fatal.couldNotParsePatchFile st1
      | some files =>
        (applyPatchedFiles ext files st1).andThen fun st2 =>
          match st2.pushTree.Add filePath with
          | none => Outcome.fatal (Fatal.couldNotAddFile filePath) st2
          | some push =>
            Outcome.done ({ st2 with pushTree := push }.printf ("git add " ++ filePath))

/-- The loop `for _, info := range infos` of `srpmPatches`. -/
def srpmPatchEntries (ext : Externals) : List String → State → Outcome
  | [], st => Outcome.done st
  | name :: rest, st =>
    (srpmPatchEntry ext name st).andThen (srpmPatchEntries ext rest)

/-- `srpmPatches(patchTree, pushTree)`. -/
def srpmPatches (ext : Externals) (st : State) : Outcome :=
  if st.patchTree.Filesystem.Stat "ROCKY/SRPM" then
    match st.patchTree.Filesystem.ReadDir "ROCKY/SRPM" with
    | none => Outcome.fatal Fatal.couldNotWalkPatches st
    | some infos => srpmPatchEntries ext infos st
  else Outcome.done st

/-! ## `cfgPatches`, `applyPatches` -/

/-- The body of the loop over `infos` in `cfgPatches` (lines 132 to 154). -/
def cfgPatchEntry (ext : Externals) (name : String) (st : State) : Outcome :=
  if !hasSuffix name ".cfg" then Outcome.done st
  else
    let st1 := st.printf ("applying directive " ++ name)
    let filePath := filepathJoin ["ROCKY/CFG", name]
    match st1.patchTree.Filesystem.Open filePath with
    | none => Outcome.fatal (Fatal.couldNotOpenDirectiveFile name) st1
    | some directiveBytes =>
      match ext.unmarshal directiveBytes with
      | none => Outcome.fatal Fatal.couldNotUnmarshalCfg st1
      | some cfg => ext.directivesApply cfg st1

/-- The loop `for _, info := range infos` of `cfgPatches`. -/
def cfgPatchEntries (ext : Externals) : List String → State → Outcome
  | [], st => Outcome.done st
  | name :: rest, st =>
    (cfgPatchEntry ext name st).andThen (cfgPatchEntries ext rest)

/-- `cfgPatches(patchTree, pushTree)`. -/
def cfgPatches (ext : Externals) (st : State) : Outcome :=
  if st.patchTree.Filesystem.Stat "ROCKY/CFG" then
    match st.patchTree.Filesystem.ReadDir "ROCKY/CFG" with
    | none => Outcome.fatal Fatal.couldNotWalkPatches st
    | some infos => cfgPatchEntries ext infos st
  else Outcome.done st

/-- `applyPatches(patchTree, pushTree)`. -/
def applyPatches (ext : Externals) (st : State) : Outcome :=
  if st.patchTree.Filesystem.Stat "ROCKY" then
    (srpmPatches ext st).andThen (cfgPatches ext)
  else Outcome.done st

/-! ## `executePatches` -/

/-- The field of `ProcessData` that `executePatches` reads besides the
authenticator. -/
structure ProcessData where
  UpstreamPrefix : String

/-- The fields of `modeData` that `executePatches` reads; `rpmFileName` is
`md.rpmFile.Name()`. -/
structure ModeData where
  rpmFileName : String
  pushBranch : String
  worktree : Worktree

/-- The behaviour of go-git during one run: whether `git.Init`,
`repo.Worktree` and `repo.CreateRemote` succeed, and what `repo.Fetch` from a
remote URL brings in: the tree of every reference it created, or failure. -/
structure Git where
  initOk : Bool
  worktreeOk : Bool
  createRemoteOk : Bool
  fetch : String → Option (String → Option Filesystem)

/-- A tree as checked out: every file is tracked and nothing is staged. -/
def checkedOut (tree : Filesystem) : Worktree :=
  { Filesystem := tree, tracked := fun p => (tree.files p).isSome, index := fun _ => none }

/-- `w.Checkout` with `Force: true`: the worktree becomes the tree of the
reference with nothing staged, or the checkout fails when the reference does
not exist. -/
def checkout (refs : String → Option Filesystem) (branch : String) : Option Worktree :=
  match refs branch with
  | none => none
  | some tree => some (checkedOut tree)

/-- The worktree of a repository freshly initialised on `memfs.New()`. -/
def emptyWorktree : Worktree :=
  { Filesystem := { files := fun _ => none, dirs := fun _ => none }
    tracked := fun _ => false
    index := fun _ => none }

/-- `plumbing.NewRemoteReferenceName`. -/
def newRemoteReferenceName (remote name : String) : String :=
  "refs/remotes/" ++ remote ++ "/" ++ name

/-- `plumbing.NewBranchReferenceName`. -/
def newBranchReferenceName (name : String) : String :=
  "refs/heads/" ++ name

/-- `executePatches(pd, md)`. -/
def executePatches (ext : Externals) (git : Git) (pd : ProcessData) (md : ModeData) : Outcome :=
  let st0 : State := { patchTree := emptyWorktree, pushTree := md.worktree, log := [] }
  if !git.initOk then Outcome.fatal Fatal.couldNotCreateDistRepo st0
  else if !git.worktreeOk then Outcome.fatal Fatal.couldNotGetDistWorktree st0
  else
    let remoteUrl := pd.UpstreamPrefix ++ "/patch/" ++ md.rpmFileName ++ ".git"
    if !git.createRemoteOk then Outcome.fatal Fatal.couldNotCreateRemote st0
    else
      let fetched := git.fetch remoteUrl
      let refName := newBranchReferenceName md.pushBranch
      let st1 := st0.printf ("set reference to ref: " ++ refName)
      match fetched with
      | none => Outcome.done (st1.printf "info: patch repo not found")
      | some refs =>
        let common : Outcome :=
          match checkout refs (newRemoteReferenceName "origin" "master") with
          | some w => applyPatches ext { st1 with patchTree := w }
          | none => Outcome.done (st1.printf "info: no common patches found")
        common.andThen fun st2 =>
          match checkout refs (newRemoteReferenceName "origin" md.pushBranch) with
          | some w => applyPatches ext { st2 with patchTree := w }
          | none => Outcome.done (st2.printf "info: no branch specific patches found")

/-! ## The Path Resolver of the specification -/

/-- The rule of section 4.1 in the specification's words: a declared path that
begins with the spec-files directory name is used unchanged, any other is
prefixed with the generic-sources directory name. -/
def resolvePath (declared : String) : Path :=
  if hasPrefix declared "SPECS" then declared else filepathJoin ["SOURCES", declared]

/-- The state in which `executePatches` reaches its first checkout. -/
def checkoutState (md : ModeData) : State :=
  ({ patchTree := emptyWorktree, pushTree := md.worktree, log := [] } : State).printf
    ("set reference to ref: " ++ newBranchReferenceName md.pushBranch)

/-! ## The records of a scope and the paths they touch -/

/-- Whether processing the record removes or writes the file at `p`: the paths
concerned are the resolved new path and `SOURCES` joined with the old name. -/
def touches (f : PatchedFile) (p : Path) : Bool :=
  decide (p = resolvePath f.NewName) || decide (p = filepathJoin ["SOURCES", f.OldName])

/-- The content at `p` once the record `f` has been processed, given the
content `cur` at `p` before. -/
def stepAt (ext : Externals) (p : Path) (f : PatchedFile) (cur : Option Content) :
    Option Content :=
  if p = resolvePath f.NewName then
    if f.IsNew then ext.applyFile "" f
    else if f.IsDelete then none
    else cur.bind fun c => ext.applyFile c f
  else if p = filepathJoin ["SOURCES", f.OldName] then none
  else cur

/-- The records of the directory entry `name` of `ROCKY/SRPM`: those of the
patch file when the entry is one that parses, none otherwise. -/
def entryRecords (ext : Externals) (tree : Filesystem) (name : String) : List PatchedFile :=
  if hasSuffix name ".patch" then
    ((tree.Open (filepathJoin ["ROCKY/SRPM", name])).bind ext.parse).getD []
  else []

/-- The records of a listing of `ROCKY/SRPM`, in processing order. -/
def entriesRecords (ext : Externals) (tree : Filesystem) : List String → List PatchedFile
  | [] => []
  | name :: rest => entryRecords ext tree name ++ entriesRecords ext tree rest

/-- The file-change records `applyPatches` goes through for a patch-scope tree,
in processing order: all records of all patch files of `ROCKY/SRPM`. -/
def scopeRecords (ext : Externals) (tree : Filesystem) : List PatchedFile :=
  if tree.Stat "ROCKY" && tree.Stat "ROCKY/SRPM" then
    match tree.ReadDir "ROCKY/SRPM" with
    | none => []
    | some infos => entriesRecords ext tree infos
  else []

/-! ## Concrete inputs -/

/-- A diff applier for the examples: the hunks are appended to the source, and
a hunk `!` does not apply. -/
def demoApply (src : Content) (f : PatchedFile) : Option Content :=
  if f.TextFragments.contains "!" then none else some (src ++ String.join f.TextFragments)

/-- A modification of `foo.c`. -/
def modFoo : PatchedFile :=
  { OldName := "foo.c", NewName := "foo.c", IsNew := false, IsDelete := false,
    TextFragments := ["+common;"] }

/-- A second modification of `foo.c`. -/
def modFooBranch : PatchedFile :=
  { OldName := "foo.c", NewName := "foo.c", IsNew := false, IsDelete := false,
    TextFragments := ["+branch;"] }

/-- A modification of the spec file. -/
def modSpec : PatchedFile :=
  { OldName := "SPECS/foo.spec", NewName := "SPECS/foo.spec", IsNew := false,
    IsDelete := false, TextFragments := ["Release: 2;"] }

/-- A creation whose old and new names are both `same.c`. -/
def newSame : PatchedFile :=
  { OldName := "same.c", NewName := "same.c", IsNew := true, IsDelete := false,
    TextFragments := ["fresh;"] }

/-- A deletion of the spec file, as `gitdiff` reports it: no new name. -/
def delSpec : PatchedFile :=
  { OldName := "SPECS/foo.spec", NewName := "", IsNew := false, IsDelete := true,
    TextFragments := [] }

/-- A deletion of a second spec file. -/
def delOldSpec : PatchedFile :=
  { OldName := "SPECS/old.spec", NewName := "", IsNew := false, IsDelete := true,
    TextFragments := [] }

/-- A pure rename of `bar.c` to `baz.c`. -/
def renameBar : PatchedFile :=
  { OldName := "bar.c", NewName := "baz.c", IsNew := false, IsDelete := false,
    TextFragments := [] }

/-- A creation of `new.c`, as `gitdiff` reports it: no old name. -/
def addNew : PatchedFile :=
  { OldName := "", NewName := "new.c", IsNew := true, IsDelete := false,
    TextFragments := ["new;"] }

/-- A patch parser for the examples, keyed by the patch file's content. -/
def demoParse (patch : Content) : Option (List PatchedFile) :=
  if patch = "fix" then some [modFoo]
  else if patch = "branch-fix" then some [modFooBranch]
  else if patch = "drop-old-spec" then some [delOldSpec]
  else if patch = "add" then some [addNew]
  else if patch = "spec-and-branch-fix" then some [modSpec, modFooBranch]
  else none

/-- The collaborators of the examples.  The one directive the example engine
knows deletes `SOURCES/unused.tar.gz` from the destination tree. -/
def demoExt : Externals :=
  { parse := demoParse
    applyFile := demoApply
    Cfg := Unit
    unmarshal := fun c => if c = "delete: SOURCES/unused.tar.gz" then some () else none
    directivesApply := fun _ st =>
      Outcome.done
        { st with pushTree :=
            { st.pushTree with
              Filesystem := st.pushTree.Filesystem.Remove "SOURCES/unused.tar.gz" } } }

/-- The files of the example destination tree. -/
def demoFiles : Filesystem :=
  { files := fun p =>
      if p = "SOURCES/foo.c" then some "int x;"
      else if p = "SOURCES/bar.c" then some "bar;"
      else if p = "SOURCES/same.c" then some "stale;"
      else if p = "SOURCES/unused.tar.gz" then some "tarball;"
      else if p = "SPECS/foo.spec" then some "Name: foo;"
      else if p = "SPECS/old.spec" then some "Name: old;"
      else none
    dirs := fun _ => none }

/-- A destination tree with sources and spec files, as checked out: every file
tracked, nothing staged. -/
def demoPush : Worktree := checkedOut demoFiles

/-- The example destination tree after the patch files of the example scopes
were copied into it under their own paths, not yet staged. -/
def copiedPush : Worktree :=
  { demoPush with
    Filesystem :=
      { files := fun p =>
          if p = "ROCKY/SRPM/0000-add.patch" then some "add"
          else if p = "ROCKY/SRPM/0001-fix.patch" then some "fix"
          else if p = "ROCKY/SRPM/0002-branch.patch" then some "spec-and-branch-fix"
          else demoFiles.files p
        dirs := fun _ => none } }

/-- A patch-scope tree holding the patch files `entries` (name and content)
under `ROCKY/SRPM`, and no `ROCKY/CFG`. -/
def scopeTree (entries : List (String × Content)) : Filesystem :=
  { files := fun p =>
      (entries.find? fun e => filepathJoin ["ROCKY/SRPM", e.1] = p).map Prod.snd
    dirs := fun p =>
      if p = "ROCKY" then some ["SRPM"]
      else if p = "ROCKY/SRPM" then some (entries.map Prod.fst)
      else none }

/-- The common scope of the examples. -/
def commonTree : Filesystem := scopeTree [("0001-fix.patch", "fix")]

/-- A scope with an entry that is not a patch file next to one that is. -/
def mixedTree : Filesystem := scopeTree [("README.md", "notes"), ("0001-fix.patch", "fix")]

/-- A scope whose second patch file is malformed. -/
def brokenTree : Filesystem :=
  scopeTree [("0001-fix.patch", "fix"), ("0002-bad.patch", "garbage"),
    ("0003-late.patch", "branch-fix")]

/-- A scope whose only patch deletes a spec file. -/
def dropSpecTree : Filesystem := scopeTree [("0009-drop.patch", "drop-old-spec")]

/-- A common scope with two patch files, an entry that is no patch file, and a
directive file. -/
def richCommonTree : Filesystem :=
  { files := fun p =>
      if p = "ROCKY/SRPM/0000-add.patch" then some "add"
      else if p = "ROCKY/SRPM/0001-fix.patch" then some "fix"
      else if p = "ROCKY/SRPM/README.md" then some "notes"
      else if p = "ROCKY/CFG/unused.cfg" then some "delete: SOURCES/unused.tar.gz"
      else none
    dirs := fun p =>
      if p = "ROCKY" then some ["CFG", "SRPM"]
      else if p = "ROCKY/SRPM" then some ["0000-add.patch", "0001-fix.patch", "README.md"]
      else if p = "ROCKY/CFG" then some ["unused.cfg"]
      else none }

/-- A branch scope whose patch file holds two records. -/
def richBranchTree : Filesystem := scopeTree [("0002-branch.patch", "spec-and-branch-fix")]

/-- A patch-scope tree without the `ROCKY` marker. -/
def bareTree : Filesystem :=
  { files := fun p => if p = "README.md" then some "notes" else none
    dirs := fun _ => none }

/-- The state before a scope is overlaid on the example destination tree. -/
def demoState (tree : Filesystem) : State :=
  { patchTree := checkedOut tree
    pushTree := demoPush
    log := [] }

/-- The state before a scope is overlaid on the example destination tree that
holds copies of the patch files. -/
def copiedState (tree : Filesystem) : State :=
  { patchTree := checkedOut tree
    pushTree := copiedPush
    log := [] }

/-- The references of the example patch repository. -/
def demoRefs (ref : String) : Option Filesystem :=
  if ref = "refs/remotes/origin/master" then some richCommonTree
  else if ref = "refs/remotes/origin/r8" then some richBranchTree
  else none

/-- The references of an example patch repository without a common branch. -/
def branchOnlyRefs (ref : String) : Option Filesystem :=
  if ref = "refs/remotes/origin/r8" then some richBranchTree else none

/-- A fetch that brings in `master` and `r8` for the example package. -/
def demoGit : Git :=
  { initOk := true
    worktreeOk := true
    createRemoteOk := true
    fetch := fun url =>
      if url = "https://git.example.org/patch/foo.git" then some demoRefs else none }

/-- A fetch that brings in `r8` only. -/
def demoGitBranchOnly : Git :=
  { demoGit with
    fetch := fun url =>
      if url = "https://git.example.org/patch/foo.git" then some branchOnlyRefs else none }

/-- The process data of the examples. -/
def demoPd : ProcessData := { UpstreamPrefix := "https://git.example.org" }

/-- The mode data of the examples: the destination tree holds copies of the
patch files. -/
def demoMd : ModeData := { rpmFileName := "foo", pushBranch := "r8", worktree := copiedPush }

/-! ## Theorems -/

/-! ### Sequencing and the patch-scope tree -/

theorem andThen_done (s : State) (f : State → Outcome) :
    (Outcome.done s).andThen f = f s := rfl

theorem andThen_fatal (e : Fatal) (s : State) (f : State → Outcome) :
    (Outcome.fatal e s).andThen f = Outcome.fatal e s := rfl

theorem andThen_assoc (o : Outcome) (f g : State → Outcome) :
    (o.andThen f).andThen g = o.andThen fun s => (f s).andThen g := by
  cases o <;> rfl

/-- If every step keeps the patch-scope tree, so does a sequence. -/
theorem andThen_patchTree (o : Outcome) (f : State → Outcome)
    (hf : ∀ s, (f s).state.patchTree = s.patchTree) :
    (o.andThen f).state.patchTree = o.state.patchTree := by
  cases o with
  | done s => exact hf s
  | fatal e s => rfl

/-- One file-change record never touches the patch-scope tree. -/
theorem applyPatchedFile_patchTree (ext : Externals) (patchedFile : PatchedFile) (st : State) :
    (applyPatchedFile ext patchedFile st).state.patchTree = st.patchTree := by
  unfold applyPatchedFile
  simp only []
  split
  · rfl
  · split
    · split
      · rfl
      · split <;> rfl
    · split
      · split <;> rfl
      · split <;> rfl

theorem applyPatchedFiles_patchTree (ext : Externals) (files : List PatchedFile) (st : State) :
    (applyPatchedFiles ext files st).state.patchTree = st.patchTree := by
  induction files generalizing st with
  | nil => rfl
  | cons f rest ih =>
    unfold applyPatchedFiles
    rw [andThen_patchTree _ _ ih, applyPatchedFile_patchTree]

/-- One directory entry of `ROCKY/SRPM` never touches the patch-scope tree. -/
theorem srpmPatchEntry_patchTree (ext : Externals) (name : String) (st : State) :
    (srpmPatchEntry ext name st).state.patchTree = st.patchTree := by
  unfold srpmPatchEntry
  simp only []
  split
  · rfl
  · split
    · rfl
    · split
      · rfl
      · refine (andThen_patchTree _ _ (fun s => ?_)).trans ?_
        · split <;> rfl
        · rw [applyPatchedFiles_patchTree]
          rfl

theorem srpmPatchEntries_patchTree (ext : Externals) (infos : List String) (st : State) :
    (srpmPatchEntries ext infos st).state.patchTree = st.patchTree := by
  induction infos generalizing st with
  | nil => rfl
  | cons name rest ih =>
    unfold srpmPatchEntries
    rw [andThen_patchTree _ _ ih, srpmPatchEntry_patchTree]

/-- The loop over the directory entries runs a listing piece by piece. -/
theorem srpmPatchEntries_append (ext : Externals) (pre post : List String) (st : State) :
    srpmPatchEntries ext (pre ++ post) st =
      (srpmPatchEntries ext pre st).andThen (srpmPatchEntries ext post) := by
  induction pre generalizing st with
  | nil => rfl
  | cons name rest ih =>
    simp only [List.cons_append, srpmPatchEntries, andThen_assoc]
    congr 1
    funext s
    exact ih s

/-! ### The content at a path through records, patch files and scopes -/

theorem srcPath_eq_resolvePath (n : String) :
    (if (!hasPrefix n "SPECS") = true then filepathJoin ["SOURCES", n] else n)
      = resolvePath n := by
  unfold resolvePath
  cases hasPrefix n "SPECS" <;> simp

theorem Add_Filesystem (w w' : Worktree) (p : Path) (h : w.Add p = some w') :
    w'.Filesystem = w.Filesystem := by
  unfold Worktree.Add at h
  split at h
  · cases h; rfl
  · split at h
    · cases h; rfl
    · cases h

theorem Remove_Filesystem (w w' : Worktree) (p : Path) (h : w.Remove p = some w') :
    w'.Filesystem = w.Filesystem.Remove p := by
  unfold Worktree.Remove at h
  split at h
  · cases h; rfl
  · cases h

theorem applyPatchedFile_files (ext : Externals) (f : PatchedFile) (st st' : State) (p : Path)
    (h : applyPatchedFile ext f st = Outcome.done st') :
    st'.pushTree.Filesystem.files p = stepAt ext p f (st.pushTree.Filesystem.files p) := by
  unfold applyPatchedFile at h
  unfold stepAt
  simp only [srcPath_eq_resolvePath] at h
  generalize resolvePath f.NewName = sp at h ⊢
  generalize filepathJoin ["SOURCES", f.OldName] = op at h ⊢
  cases hN : f.IsNew <;> cases hD : f.IsDelete <;>
    simp only [hN, hD, Bool.not_true, Bool.not_false, Bool.and_true, Bool.and_false,
      Bool.true_and, Bool.false_and, Bool.false_eq_true, if_true, if_false] at h ⊢
  · -- modification
    cases hopen : st.pushTree.Filesystem.Open sp with
    | none => simp [hopen] at h
    | some c =>
      cases happly : ext.applyFile c f with
      | none => simp [hopen, happly] at h
      | some out =>
        simp only [hopen, happly] at h
        split at h
        · cases h
        · rename_i push hadd
          cases h
          have hfs := Add_Filesystem _ _ _ hadd
          simp only [State.printf, hfs, Filesystem.Write, Filesystem.Create, Filesystem.Remove]
          by_cases hp : p = sp
          · subst hp
            have hopen2 : st.pushTree.Filesystem.files p = some c := hopen
            simp [hopen2, happly]
          · simp [hp]
  · -- deletion
    split at h
    · cases h
    · rename_i push hrm
      cases h
      have hfs := Remove_Filesystem _ _ _ hrm
      simp only [State.printf, hfs, Filesystem.Remove]
      by_cases hp : p = sp
      · simp [hp]
      · by_cases ho : p = op
        · simp [hp, ho]
        · simp [hp, ho]
  · -- creation
    cases happly : ext.applyFile
        (((((st.pushTree.Filesystem.Remove op).Remove sp).Create sp).files sp).getD "") f with
    | none => simp [happly] at h
    | some out =>
      simp only [happly] at h
      split at h
      · cases h
      · rename_i push hadd
        cases h
        have hfs := Add_Filesystem _ _ _ hadd
        have hsrc : ((((st.pushTree.Filesystem.Remove op).Remove sp).Create sp).files sp).getD ""
            = "" := by simp [Filesystem.Create]
        rw [hsrc] at happly
        simp only [State.printf, hfs, Filesystem.Write, Filesystem.Create, Filesystem.Remove]
        by_cases hp : p = sp
        · simp [hp, happly]
        · simp [hp]
  · -- creation flagged as deletion too
    cases happly : ext.applyFile
        (((((st.pushTree.Filesystem.Remove op).Remove sp).Create sp).files sp).getD "") f with
    | none => simp [happly] at h
    | some out =>
      simp only [happly] at h
      split at h
      · cases h
      · rename_i push hadd
        cases h
        have hfs := Add_Filesystem _ _ _ hadd
        have hsrc : ((((st.pushTree.Filesystem.Remove op).Remove sp).Create sp).files sp).getD ""
            = "" := by simp [Filesystem.Create]
        rw [hsrc] at happly
        simp only [State.printf, hfs, Filesystem.Write, Filesystem.Create, Filesystem.Remove]
        by_cases hp : p = sp
        · simp [hp, happly]
        · simp [hp]

theorem applyPatchedFiles_files (ext : Externals) (p : Path) (files : List PatchedFile)
    (st st' : State) (h : applyPatchedFiles ext files st = Outcome.done st') :
    st'.pushTree.Filesystem.files p
      = files.foldl (fun cur f => stepAt ext p f cur) (st.pushTree.Filesystem.files p) := by
  induction files generalizing st with
  | nil =>
    cases h
    rfl
  | cons f rest ih =>
    unfold applyPatchedFiles at h
    cases hrun : applyPatchedFile ext f st with
    | fatal e s => simp [hrun, andThen_fatal] at h
    | done s1 =>
      rw [hrun, andThen_done] at h
      rw [ih s1 h, applyPatchedFile_files ext f st s1 p hrun]
      rfl

theorem srpmPatchEntry_files (ext : Externals) (p : Path) (name : String) (st st' : State)
    (h : srpmPatchEntry ext name st = Outcome.done st') :
    st'.pushTree.Filesystem.files p
      = (entryRecords ext st.patchTree.Filesystem name).foldl
          (fun cur f => stepAt ext p f cur) (st.pushTree.Filesystem.files p) := by
  unfold srpmPatchEntry at h
  unfold entryRecords
  cases hsuf : hasSuffix name ".patch" with
  | false =>
    simp only [hsuf, Bool.not_false, if_true] at h
    cases h
    simp
  | true =>
    simp only [hsuf, Bool.not_true, Bool.false_eq_true, if_false, if_true] at h ⊢
    have hopenEq : (st.printf ("applying " ++ name)).patchTree.Filesystem.Open
        (filepathJoin ["ROCKY/SRPM", name])
        = st.patchTree.Filesystem.Open (filepathJoin ["ROCKY/SRPM", name]) := rfl
    rw [hopenEq] at h
    cases hopen : st.patchTree.Filesystem.Open (filepathJoin ["ROCKY/SRPM", name]) with
    | none => simp [hopen] at h
    | some patch =>
      cases hparse : ext.parse patch with
      | none => simp [hopen, hparse] at h
      | some files =>
        simp only [hopen, hparse] at h
        cases hrun : applyPatchedFiles ext files (st.printf ("applying " ++ name)) with
        | fatal e s => simp [hrun, andThen_fatal] at h
        | done s2 =>
          rw [hrun, andThen_done] at h
          split at h
          · cases h
          · rename_i push hadd
            cases h
            have hfs := Add_Filesystem _ _ _ hadd
            have h2 := applyPatchedFiles_files ext p files _ s2 hrun
            have hrec : ((some patch).bind ext.parse).getD [] = files := by
              simp [hparse]
            rw [hrec]
            simp only [State.printf, hfs] at h2 ⊢
            exact h2

theorem srpmPatchEntries_files (ext : Externals) (p : Path) (infos : List String)
    (st st' : State) (h : srpmPatchEntries ext infos st = Outcome.done st') :
    st'.pushTree.Filesystem.files p
      = (entriesRecords ext st.patchTree.Filesystem infos).foldl
          (fun cur f => stepAt ext p f cur) (st.pushTree.Filesystem.files p) := by
  induction infos generalizing st with
  | nil =>
    cases h
    rfl
  | cons name rest ih =>
    unfold srpmPatchEntries at h
    cases hrun : srpmPatchEntry ext name st with
    | fatal e s => simp [hrun, andThen_fatal] at h
    | done s1 =>
      rw [hrun, andThen_done] at h
      have hpt := srpmPatchEntry_patchTree ext name st
      rw [hrun] at hpt
      have hpt1 : s1.patchTree = st.patchTree := hpt
      rw [ih s1 h, srpmPatchEntry_files ext p name st s1 hrun, hpt1]
      simp [entriesRecords, List.foldl_append]

/-- If every step keeps the content at `p`, so does a sequence. -/
theorem andThen_files (p : Path) (o : Outcome) (f : State → Outcome)
    (hf : ∀ s, (f s).state.pushTree.Filesystem.files p = s.pushTree.Filesystem.files p) :
    (o.andThen f).state.pushTree.Filesystem.files p = o.state.pushTree.Filesystem.files p := by
  cases o with
  | done s => exact hf s
  | fatal e s => rfl

theorem cfgPatchEntries_files (ext : Externals) (p : Path)
    (hcfg : ∀ cfg s, (ext.directivesApply cfg s).state.pushTree.Filesystem.files p
      = s.pushTree.Filesystem.files p)
    (infos : List String) (st : State) :
    (cfgPatchEntries ext infos st).state.pushTree.Filesystem.files p
      = st.pushTree.Filesystem.files p := by
  induction infos generalizing st with
  | nil => rfl
  | cons name rest ih =>
    unfold cfgPatchEntries
    rw [andThen_files p _ _ ih]
    unfold cfgPatchEntry
    simp only []
    split
    · rfl
    · split
      · rfl
      · split
        · rfl
        · rw [hcfg]
          rfl

theorem cfgPatches_files (ext : Externals) (p : Path)
    (hcfg : ∀ cfg s, (ext.directivesApply cfg s).state.pushTree.Filesystem.files p
      = s.pushTree.Filesystem.files p)
    (st : State) :
    (cfgPatches ext st).state.pushTree.Filesystem.files p
      = st.pushTree.Filesystem.files p := by
  unfold cfgPatches
  split
  · split
    · rfl
    · exact cfgPatchEntries_files ext p hcfg _ st
  · rfl

/-- The content at `p` after a scope was overlaid to completion is the content
before, taken through the scope's records in order, provided the directive
engine leaves `p` alone. -/
theorem applyPatches_files (ext : Externals) (p : Path)
    (hcfg : ∀ cfg s, (ext.directivesApply cfg s).state.pushTree.Filesystem.files p
      = s.pushTree.Filesystem.files p)
    (st st' : State) (h : applyPatches ext st = Outcome.done st') :
    st'.pushTree.Filesystem.files p
      = (scopeRecords ext st.patchTree.Filesystem).foldl
          (fun cur f => stepAt ext p f cur) (st.pushTree.Filesystem.files p) := by
  unfold applyPatches at h
  unfold scopeRecords
  cases hrocky : st.patchTree.Filesystem.Stat "ROCKY" with
  | false =>
    simp only [hrocky, Bool.false_eq_true, if_false] at h
    cases h
    simp
  | true =>
    simp only [hrocky, if_true] at h
    cases hs : srpmPatches ext st with
    | fatal e s => simp [hs, andThen_fatal] at h
    | done s1 =>
      rw [hs, andThen_done] at h
      have hc := cfgPatches_files ext p hcfg s1
      rw [h] at hc
      have hc1 : st'.pushTree.Filesystem.files p = s1.pushTree.Filesystem.files p := hc
      rw [hc1]
      unfold srpmPatches at hs
      cases hsrpm : st.patchTree.Filesystem.Stat "ROCKY/SRPM" with
      | false =>
        simp only [hsrpm, Bool.false_eq_true, if_false] at hs
        cases hs
        simp
      | true =>
        simp only [hsrpm, if_true] at hs
        cases hdir : st.patchTree.Filesystem.ReadDir "ROCKY/SRPM" with
        | none => simp [hdir] at hs
        | some infos =>
          simp only [hdir] at hs
          simp only [Bool.and_self, if_true]
          exact srpmPatchEntries_files ext p infos st s1 hs

theorem foldl_stepAt_untouched (ext : Externals) (p : Path) (l : List PatchedFile)
    (h : ∀ g ∈ l, touches g p = false) (cur : Option Content) :
    l.foldl (fun cur f => stepAt ext p f cur) cur = cur := by
  induction l generalizing cur with
  | nil => rfl
  | cons g rest ih =>
    have hg := h g (List.mem_cons_self g rest)
    simp only [touches, Bool.or_eq_false_iff, decide_eq_false_iff_not] at hg
    have hstep : stepAt ext p g cur = cur := by simp [stepAt, hg.1, hg.2]
    rw [List.foldl_cons, hstep]
    exact ih (fun g' hg' => h g' (List.mem_cons_of_mem g hg')) cur

/-- Through a list of records of which only the modification `f` touches `p`,
the content `c` at `p` becomes what the applier makes of it. -/
theorem foldl_stepAt_single (ext : Externals) (p : Path) (pre post : List PatchedFile)
    (f : PatchedFile) (c : Content)
    (hothers : ∀ g ∈ pre ++ post, touches g p = false)
    (hNew : f.IsNew = false) (hDelete : f.IsDelete = false)
    (hp : resolvePath f.NewName = p) :
    (pre ++ f :: post).foldl (fun cur f => stepAt ext p f cur) (some c)
      = ext.applyFile c f := by
  rw [List.foldl_append, List.foldl_cons,
    foldl_stepAt_untouched ext p pre
      (fun g hg => hothers g (List.mem_append_left post hg)),
    foldl_stepAt_untouched ext p post
      (fun g hg => hothers g (List.mem_append_right pre hg))]
  simp [stepAt, hp, hNew, hDelete]

/-! ### File-change records -/

/-- C1: for a modification record (neither create nor delete) whose old name
equals its new name, if the resolved destination path holds content `c` and
the diff applier succeeds on `c`, then processing the record ends normally,
the destination tree holds exactly the applier's output at that path, and the
path is marked staged-added. -/
theorem modify_in_place_writes_applied_content (ext : Externals) (patchedFile : PatchedFile)
    (st : State) (c out : Content)
    (hNew : patchedFile.IsNew = false) (hDelete : patchedFile.IsDelete = false)
    (_hName : patchedFile.OldName = patchedFile.NewName)
    (hc : st.pushTree.Filesystem.files (resolvePath patchedFile.NewName) = some c)
    (hout : ext.applyFile c patchedFile = some out) :
    ∃ st', applyPatchedFile ext patchedFile st = Outcome.done st' ∧
      st'.pushTree.Filesystem.files (resolvePath patchedFile.NewName) = some out ∧
      st'.pushTree.index (resolvePath patchedFile.NewName) = some Mark.added := by
  unfold resolvePath at hc ⊢
  unfold applyPatchedFile
  by_cases hp : hasPrefix patchedFile.NewName "SPECS" = true
  · simp [hp, hNew, hDelete, Filesystem.Open] at hc ⊢
    simp [hc, hout, State.printf, Worktree.Add, Filesystem.Write, Filesystem.Create,
      Filesystem.Remove]
  · simp [hp, hNew, hDelete, Filesystem.Open] at hc ⊢
    simp [hc, hout, State.printf, Worktree.Add, Filesystem.Write, Filesystem.Create,
      Filesystem.Remove]

/-- C1 at a concrete input: the modification of `foo.c` on the example tree. -/
theorem modify_in_place_writes_applied_content_witness :
    modFoo.IsNew = false ∧ modFoo.IsDelete = false ∧ modFoo.OldName = modFoo.NewName ∧
    (demoState commonTree).pushTree.Filesystem.files (resolvePath modFoo.NewName)
      = some "int x;" ∧
    demoExt.applyFile "int x;" modFoo = some "int x;+common;" ∧
    ∃ st', applyPatchedFile demoExt modFoo (demoState commonTree) = Outcome.done st' ∧
      st'.pushTree.Filesystem.files (resolvePath modFoo.NewName) = some "int x;+common;" ∧
      st'.pushTree.index (resolvePath modFoo.NewName) = some Mark.added :=
  ⟨rfl, rfl, rfl, by decide, by decide,
    modify_in_place_writes_applied_content demoExt modFoo (demoState commonTree)
      "int x;" "int x;+common;" rfl rfl rfl (by decide) (by decide)⟩

/-- C2: for a create record, whatever its old name and whatever was at the
resolved new path before, if the diff applier succeeds against an empty base
then processing the record ends normally, the destination tree holds exactly
that output at the resolved new path, and the path is marked staged-added. -/
theorem create_writes_against_empty_base (ext : Externals) (patchedFile : PatchedFile)
    (st : State) (out : Content)
    (hNew : patchedFile.IsNew = true)
    (hout : ext.applyFile "" patchedFile = some out) :
    ∃ st', applyPatchedFile ext patchedFile st = Outcome.done st' ∧
      st'.pushTree.Filesystem.files (resolvePath patchedFile.NewName) = some out ∧
      st'.pushTree.index (resolvePath patchedFile.NewName) = some Mark.added := by
  unfold resolvePath
  unfold applyPatchedFile
  by_cases hp : hasPrefix patchedFile.NewName "SPECS" = true
  · simp [hp, hNew, hout, State.printf, Worktree.Add, Filesystem.Write, Filesystem.Create,
      Filesystem.Remove]
  · simp [hp, hNew, hout, State.printf, Worktree.Add, Filesystem.Write, Filesystem.Create,
      Filesystem.Remove]

/-- C2 at a concrete input: a creation whose old and new names are equal, over
a path that already holds other content. -/
theorem create_writes_against_empty_base_witness :
    newSame.IsNew = true ∧ newSame.OldName = newSame.NewName ∧
    (demoState commonTree).pushTree.Filesystem.files (resolvePath newSame.NewName)
      = some "stale;" ∧
    demoExt.applyFile "" newSame = some "fresh;" ∧
    ∃ st', applyPatchedFile demoExt newSame (demoState commonTree) = Outcome.done st' ∧
      st'.pushTree.Filesystem.files (resolvePath newSame.NewName) = some "fresh;" ∧
      st'.pushTree.index (resolvePath newSame.NewName) = some Mark.added :=
  ⟨rfl, rfl, by decide, by decide,
    create_writes_against_empty_base demoExt newSame (demoState commonTree) "fresh;" rfl
      (by decide)⟩

/-- C3: the code at a delete record for `SPECS/foo.spec`, a tracked file of the
destination tree.  The Path Resolver rule keeps that old path unchanged, yet
the path the code removes is `SOURCES/SPECS/foo.spec`: staging its removal
fails, the run ends in the fatal error "could not remove file", and
`SPECS/foo.spec` is still there, still in the index, with no staging mark. -/
theorem delete_of_spec_file_misses_it :
    delSpec.IsDelete = true ∧
    resolvePath delSpec.OldName = "SPECS/foo.spec" ∧
    (demoState commonTree).pushTree.Filesystem.files "SPECS/foo.spec" = some "Name: foo;" ∧
    (demoState commonTree).pushTree.inIndex "SPECS/foo.spec" = true ∧
    (applyPatchedFile demoExt delSpec (demoState commonTree)).error
      = some (Fatal.couldNotRemoveFile "SOURCES/SPECS/foo.spec") ∧
    (applyPatchedFile demoExt delSpec (demoState commonTree)).state.pushTree.Filesystem.files
      "SPECS/foo.spec" = some "Name: foo;" ∧
    (applyPatchedFile demoExt delSpec (demoState commonTree)).state.pushTree.inIndex
      "SPECS/foo.spec" = true ∧
    (applyPatchedFile demoExt delSpec (demoState commonTree)).state.pushTree.index
      "SPECS/foo.spec" = none := by
  decide

/-- C4: the code at a pure rename of `bar.c` to `baz.c`, with `SOURCES/bar.c`
present, `SOURCES/baz.c` absent, and a diff applier that succeeds on the old
file.  The run ends in the fatal error "could not open patch subject" and the
destination tree is as before: the old path is still there, the new one is
not, nothing is staged. -/
theorem rename_is_fatal :
    renameBar.IsNew = false ∧ renameBar.IsDelete = false ∧
    (demoState commonTree).pushTree.Filesystem.files (resolvePath renameBar.OldName)
      = some "bar;" ∧
    (demoState commonTree).pushTree.Filesystem.files (resolvePath renameBar.NewName) = none ∧
    demoExt.applyFile "bar;" renameBar = some "bar;" ∧
    (applyPatchedFile demoExt renameBar (demoState commonTree)).error
      = some Fatal.couldNotOpenPatchSubject ∧
    (applyPatchedFile demoExt renameBar (demoState commonTree)).state.pushTree.Filesystem.files
      "SOURCES/bar.c" = some "bar;" ∧
    (applyPatchedFile demoExt renameBar (demoState commonTree)).state.pushTree.Filesystem.files
      "SOURCES/baz.c" = none ∧
    (applyPatchedFile demoExt renameBar (demoState commonTree)).state.pushTree.index
      "SOURCES/bar.c" = none ∧
    (applyPatchedFile demoExt renameBar (demoState commonTree)).state.pushTree.index
      "SOURCES/baz.c" = none := by
  decide

/-- C5: the destination path computed from the declared new path `n` is `n`
itself when `n` begins with `SPECS` and `SOURCES` joined with `n` otherwise.
A modification reads that path (it fails when the path is absent, and hands
the content found there to the applier) and writes the applier's output
there; a create writes there too. -/
theorem new_path_is_resolved_read_and_written (ext : Externals) (patchedFile : PatchedFile)
    (st : State) :
    (hasPrefix patchedFile.NewName "SPECS" = true →
      resolvePath patchedFile.NewName = patchedFile.NewName) ∧
    (hasPrefix patchedFile.NewName "SPECS" = false →
      resolvePath patchedFile.NewName = filepathJoin ["SOURCES", patchedFile.NewName]) ∧
    (patchedFile.IsNew = false → patchedFile.IsDelete = false →
      (st.pushTree.Filesystem.files (resolvePath patchedFile.NewName) = none →
        applyPatchedFile ext patchedFile st
          = Outcome.fatal Fatal.couldNotOpenPatchSubject st) ∧
      (∀ c, st.pushTree.Filesystem.files (resolvePath patchedFile.NewName) = some c →
        ext.applyFile c patchedFile = none →
        applyPatchedFile ext patchedFile st = Outcome.fatal Fatal.couldNotApplyPatch st) ∧
      (∀ c out, st.pushTree.Filesystem.files (resolvePath patchedFile.NewName) = some c →
        ext.applyFile c patchedFile = some out →
        ∃ st', applyPatchedFile ext patchedFile st = Outcome.done st' ∧
          st'.pushTree.Filesystem.files (resolvePath patchedFile.NewName) = some out)) ∧
    (patchedFile.IsNew = true → ∀ out, ext.applyFile "" patchedFile = some out →
      ∃ st', applyPatchedFile ext patchedFile st = Outcome.done st' ∧
        st'.pushTree.Filesystem.files (resolvePath patchedFile.NewName) = some out) := by
  refine ⟨fun h => by simp [resolvePath, h], fun h => by simp [resolvePath, h], ?_, ?_⟩
  · intro hNew hDelete
    refine ⟨?_, ?_, ?_⟩
    · intro hc
      unfold resolvePath at hc
      unfold applyPatchedFile
      by_cases hp : hasPrefix patchedFile.NewName "SPECS" = true
      · simp [hp, hNew, hDelete, Filesystem.Open] at hc ⊢
        simp [hc]
      · simp [hp, hNew, hDelete, Filesystem.Open] at hc ⊢
        simp [hc]
    · intro c hc hfail
      unfold resolvePath at hc
      unfold applyPatchedFile
      by_cases hp : hasPrefix patchedFile.NewName "SPECS" = true
      · simp [hp, hNew, hDelete, Filesystem.Open] at hc ⊢
        simp [hc, hfail]
      · simp [hp, hNew, hDelete, Filesystem.Open] at hc ⊢
        simp [hc, hfail]
    · intro c out hc hout
      unfold resolvePath at hc ⊢
      unfold applyPatchedFile
      by_cases hp : hasPrefix patchedFile.NewName "SPECS" = true
      · simp [hp, hNew, hDelete, Filesystem.Open] at hc ⊢
        simp [hc, hout, State.printf, Worktree.Add, Filesystem.Write, Filesystem.Create,
          Filesystem.Remove]
      · simp [hp, hNew, hDelete, Filesystem.Open] at hc ⊢
        simp [hc, hout, State.printf, Worktree.Add, Filesystem.Write, Filesystem.Create,
          Filesystem.Remove]
  · intro hNew out hout
    unfold resolvePath
    unfold applyPatchedFile
    by_cases hp : hasPrefix patchedFile.NewName "SPECS" = true
    · simp [hp, hNew, hout, State.printf, Worktree.Add, Filesystem.Write, Filesystem.Create,
        Filesystem.Remove]
    · simp [hp, hNew, hout, State.printf, Worktree.Add, Filesystem.Write, Filesystem.Create,
        Filesystem.Remove]

/-- C5 at concrete inputs: the spec file is read and written at `SPECS/foo.spec`,
and `baz.c` is looked for at `SOURCES/baz.c`. -/
theorem new_path_is_resolved_read_and_written_witness :
    resolvePath modSpec.NewName = "SPECS/foo.spec" ∧
    (∃ st', applyPatchedFile demoExt modSpec (demoState commonTree) = Outcome.done st' ∧
      st'.pushTree.Filesystem.files "SPECS/foo.spec" = some "Name: foo;Release: 2;") ∧
    resolvePath renameBar.NewName = "SOURCES/baz.c" ∧
    applyPatchedFile demoExt renameBar (demoState commonTree)
      = Outcome.fatal Fatal.couldNotOpenPatchSubject (demoState commonTree) :=
  ⟨(new_path_is_resolved_read_and_written demoExt modSpec (demoState commonTree)).1
      (by decide),
    (new_path_is_resolved_read_and_written demoExt modSpec (demoState commonTree)).2.2.1
      rfl rfl |>.2.2 "Name: foo;" "Name: foo;Release: 2;" (by decide) (by decide),
    (new_path_is_resolved_read_and_written demoExt renameBar (demoState commonTree)).2.1
      (by decide),
    (new_path_is_resolved_read_and_written demoExt renameBar (demoState commonTree)).2.2.1
      rfl rfl |>.1 (by decide)⟩

/-- C6: the code on a patch file whose one record deletes `SPECS/old.spec`, a
tracked file of the destination tree.  The path computed for the old name is
`SOURCES/SPECS/old.spec`, not the old name unchanged: the run ends in the
fatal error "could not remove file SOURCES/SPECS/old.spec", after the one line
"applying 0009-drop.patch", and `SPECS/old.spec` is still in the destination
tree without a staging mark. -/
theorem old_path_always_joined_to_sources :
    hasPrefix delOldSpec.OldName "SPECS" = true ∧
    demoExt.parse "drop-old-spec" = some [delOldSpec] ∧
    (demoState dropSpecTree).pushTree.inIndex "SPECS/old.spec" = true ∧
    (srpmPatches demoExt (demoState dropSpecTree)).error
      = some (Fatal.couldNotRemoveFile "SOURCES/SPECS/old.spec") ∧
    (srpmPatches demoExt (demoState dropSpecTree)).state.log
      = ["applying 0009-drop.patch"] ∧
    (srpmPatches demoExt (demoState dropSpecTree)).state.pushTree.Filesystem.files
      "SPECS/old.spec" = some "Name: old;" ∧
    (srpmPatches demoExt (demoState dropSpecTree)).state.pushTree.index
      "SPECS/old.spec" = none ∧
    (srpmPatches demoExt (demoState dropSpecTree)).state.pushTree.index
      "SOURCES/SPECS/old.spec" = none := by
  decide

/-- A delete record whose `SOURCES`-joined old name is in the index is
processed: that path is removed and marked staged-removed, no path receives
content, and paths other than that one and the resolved new path keep their
file and their staging mark.  When that path is not in the index the run ends
in the fatal error "could not remove file". -/
theorem applyPatchedFile_delete (ext : Externals) (patchedFile : PatchedFile) (st : State)
    (hNew : patchedFile.IsNew = false) (hDelete : patchedFile.IsDelete = true) :
    (st.pushTree.inIndex (filepathJoin ["SOURCES", patchedFile.OldName]) = true →
      ∃ st', applyPatchedFile ext patchedFile st = Outcome.done st' ∧
        st'.pushTree.Filesystem.files (filepathJoin ["SOURCES", patchedFile.OldName])
          = none ∧
        st'.pushTree.index (filepathJoin ["SOURCES", patchedFile.OldName])
          = some Mark.removed ∧
        (∀ q, st'.pushTree.Filesystem.files q = st.pushTree.Filesystem.files q ∨
          st'.pushTree.Filesystem.files q = none) ∧
        (∀ q, q ≠ filepathJoin ["SOURCES", patchedFile.OldName] →
          q ≠ resolvePath patchedFile.NewName →
          st'.pushTree.Filesystem.files q = st.pushTree.Filesystem.files q ∧
          st'.pushTree.index q = st.pushTree.index q)) ∧
    (st.pushTree.inIndex (filepathJoin ["SOURCES", patchedFile.OldName]) = false →
      (applyPatchedFile ext patchedFile st).error
        = some (Fatal.couldNotRemoveFile (filepathJoin ["SOURCES", patchedFile.OldName]))) := by
  unfold applyPatchedFile
  simp only [srcPath_eq_resolvePath]
  generalize resolvePath patchedFile.NewName = sp
  generalize filepathJoin ["SOURCES", patchedFile.OldName] = op
  simp only [hNew, hDelete, Bool.not_true, Bool.false_and, Bool.false_eq_true, if_false]
  have hidxEq : (Worktree.inIndex
      { Filesystem := (st.pushTree.Filesystem.Remove op).Remove sp,
        tracked := st.pushTree.tracked, index := st.pushTree.index } op)
      = st.pushTree.inIndex op := rfl
  constructor
  · intro hidx
    simp only [Worktree.Remove, hidxEq, hidx, if_true]
    refine ⟨_, rfl, ?_, ?_, ?_, ?_⟩
    · simp [State.printf, Filesystem.Remove]
    · simp [State.printf]
    · intro q
      simp only [State.printf, Filesystem.Remove]
      by_cases h1 : q = op
      · simp [h1]
      · by_cases h2 : q = sp
        · simp [h1, h2]
        · simp [h1, h2]
    · intro q h1 h2
      simp [State.printf, Filesystem.Remove, h1, h2]
  · intro hidx
    simp only [Worktree.Remove, hidxEq, hidx, Bool.false_eq_true, if_false]
    rfl

/-! ### Patch files and scopes -/

/-- C8: when neither `ROCKY/SRPM` nor `ROCKY/CFG` exists in the patch-scope
tree, and also when `ROCKY` itself is missing, `applyPatches` ends normally and
leaves the whole state, so the destination tree's files and staging index, as
it was; and a directory entry of `ROCKY/SRPM` whose name does not end in
`.patch` changes nothing, alone or inside a listing. -/
theorem absent_markers_and_other_entries_change_nothing (ext : Externals) (st : State) :
    (st.patchTree.Filesystem.Stat "ROCKY/SRPM" = false →
      st.patchTree.Filesystem.Stat "ROCKY/CFG" = false →
      applyPatches ext st = Outcome.done st) ∧
    (st.patchTree.Filesystem.Stat "ROCKY" = false → applyPatches ext st = Outcome.done st) ∧
    (∀ name, hasSuffix name ".patch" = false →
      srpmPatchEntry ext name st = Outcome.done st) ∧
    (∀ pre name post, hasSuffix name ".patch" = false →
      srpmPatchEntries ext (pre ++ name :: post) st = srpmPatchEntries ext (pre ++ post) st) := by
  refine ⟨?_, ?_, ?_, ?_⟩
  · intro hs hc
    unfold applyPatches
    split
    · simp [srpmPatches, cfgPatches, hs, hc, andThen_done]
    · rfl
  · intro h
    simp [applyPatches, h]
  · intro name h
    simp [srpmPatchEntry, h]
  · intro pre name post h
    rw [srpmPatchEntries_append, srpmPatchEntries_append]
    congr 1
    funext s
    simp [srpmPatchEntries, srpmPatchEntry, h, andThen_done]

/-- C8 at concrete inputs: a patch-scope tree without `ROCKY`, and the
`README.md` entry of a scope directory. -/
theorem absent_markers_and_other_entries_change_nothing_witness :
    (demoState bareTree).patchTree.Filesystem.Stat "ROCKY/SRPM" = false ∧
    (demoState bareTree).patchTree.Filesystem.Stat "ROCKY/CFG" = false ∧
    applyPatches demoExt (demoState bareTree) = Outcome.done (demoState bareTree) ∧
    hasSuffix "README.md" ".patch" = false ∧
    srpmPatchEntry demoExt "README.md" (demoState mixedTree)
      = Outcome.done (demoState mixedTree) ∧
    srpmPatchEntries demoExt ([] ++ "README.md" :: ["0001-fix.patch"]) (demoState mixedTree)
      = srpmPatchEntries demoExt ([] ++ ["0001-fix.patch"]) (demoState mixedTree) :=
  ⟨by decide, by decide,
    (absent_markers_and_other_entries_change_nothing demoExt (demoState bareTree)).1
      (by decide) (by decide),
    by decide,
    (absent_markers_and_other_entries_change_nothing demoExt (demoState mixedTree)).2.2.1
      "README.md" (by decide),
    (absent_markers_and_other_entries_change_nothing demoExt (demoState mixedTree)).2.2.2
      [] "README.md" ["0001-fix.patch"] (by decide)⟩

/-- C9: the code on the patch file `0001-fix.patch`.  The path
`ROCKY/SRPM/0001-fix.patch` is staged on the destination tree, where it is
neither a file nor in the index: after the record is applied the run ends in
the fatal error "could not add file", and neither tree has a staging mark on
the path.  When a copy of the patch file lies in the destination tree the
entry is processed to completion and the mark is put on the destination
tree's index; the patch-scope tree's index has no mark in either case. -/
theorem patch_file_staged_on_the_destination_tree :
    (demoState commonTree).pushTree.Filesystem.files "ROCKY/SRPM/0001-fix.patch" = none ∧
    (demoState commonTree).pushTree.inIndex "ROCKY/SRPM/0001-fix.patch" = false ∧
    (srpmPatches demoExt (demoState commonTree)).error
      = some (Fatal.couldNotAddFile "ROCKY/SRPM/0001-fix.patch") ∧
    (srpmPatches demoExt (demoState commonTree)).state.log
      = ["applying 0001-fix.patch", "git add SOURCES/foo.c"] ∧
    (srpmPatches demoExt (demoState commonTree)).state.pushTree.Filesystem.files
      "SOURCES/foo.c" = some "int x;+common;" ∧
    (srpmPatches demoExt (demoState commonTree)).state.patchTree.index
      "ROCKY/SRPM/0001-fix.patch" = none ∧
    (srpmPatches demoExt (demoState commonTree)).state.pushTree.index
      "ROCKY/SRPM/0001-fix.patch" = none ∧
    (copiedState commonTree).pushTree.Filesystem.files "ROCKY/SRPM/0001-fix.patch"
      = some "fix" ∧
    (srpmPatches demoExt (copiedState commonTree)).isDone = true ∧
    (srpmPatches demoExt (copiedState commonTree)).state.log
      = ["applying 0001-fix.patch", "git add SOURCES/foo.c",
         "git add ROCKY/SRPM/0001-fix.patch"] ∧
    (srpmPatches demoExt (copiedState commonTree)).state.patchTree.index
      "ROCKY/SRPM/0001-fix.patch" = none ∧
    (srpmPatches demoExt (copiedState commonTree)).state.pushTree.index
      "ROCKY/SRPM/0001-fix.patch" = some Mark.added := by
  decide

/-- C10: if the directory listing of `ROCKY/SRPM` is `pre`, then a patch file
`bad` that fails to parse, then `post`, and the entries `pre` are processed to
completion reaching `st1`, then `srpmPatches` ends in the fatal error "could not
parse patch file", and at that point the destination tree (files and staging
index) is that of `st1`: no record of `bad` is applied, nothing of `post` is
processed, and the effects of `pre` stay. -/
theorem parse_failure_is_fatal_after_earlier_files (ext : Externals) (st st1 : State)
    (pre post : List String) (bad : String) (patch : Content)
    (hstat : st.patchTree.Filesystem.Stat "ROCKY/SRPM" = true)
    (hdir : st.patchTree.Filesystem.ReadDir "ROCKY/SRPM" = some (pre ++ bad :: post))
    (hpre : srpmPatchEntries ext pre st = Outcome.done st1)
    (hsuf : hasSuffix bad ".patch" = true)
    (hopen : st.patchTree.Filesystem.Open (filepathJoin ["ROCKY/SRPM", bad]) = some patch)
    (hparse : ext.parse patch = none) :
    ∃ st2, srpmPatches ext st = Outcome.fatal Fatal.couldNotParsePatchFile st2 ∧
      st2.pushTree = st1.pushTree ∧ st2.patchTree = st.patchTree ∧
      st2.log = st1.log ++ ["applying " ++ bad] := by
  have hpt := srpmPatchEntries_patchTree ext pre st
  rw [hpre] at hpt
  have hpt1 : st1.patchTree = st.patchTree := hpt
  have hopen1 : (st1.printf ("applying " ++ bad)).patchTree.Filesystem.Open
      (filepathJoin ["ROCKY/SRPM", bad]) = some patch := by
    show st1.patchTree.Filesystem.Open _ = _
    rw [hpt1]
    exact hopen
  refine ⟨st1.printf ("applying " ++ bad), ?_, rfl, hpt1, rfl⟩
  unfold srpmPatches
  simp only [hstat, hdir, if_true]
  rw [srpmPatchEntries_append, hpre, andThen_done]
  unfold srpmPatchEntries srpmPatchEntry
  simp only [hsuf, hopen1, hparse]
  rfl

/-- C10 at a concrete input: a scope whose second of three patch files is
malformed, over a destination tree that holds copies of the patch files, so
that the first patch file is processed to completion. -/
theorem parse_failure_is_fatal_after_earlier_files_witness :
    (copiedState brokenTree).patchTree.Filesystem.Stat "ROCKY/SRPM" = true ∧
    (copiedState brokenTree).patchTree.Filesystem.ReadDir "ROCKY/SRPM"
      = some (["0001-fix.patch"] ++ "0002-bad.patch" :: ["0003-late.patch"]) ∧
    (srpmPatchEntries demoExt ["0001-fix.patch"] (copiedState brokenTree)).isDone = true ∧
    (srpmPatchEntries demoExt ["0001-fix.patch"] (copiedState brokenTree)).state.log
      = ["applying 0001-fix.patch", "git add SOURCES/foo.c",
         "git add ROCKY/SRPM/0001-fix.patch"] ∧
    hasSuffix "0002-bad.patch" ".patch" = true ∧
    (copiedState brokenTree).patchTree.Filesystem.Open
      (filepathJoin ["ROCKY/SRPM", "0002-bad.patch"]) = some "garbage" ∧
    demoExt.parse "garbage" = none ∧
    ∃ st2, srpmPatches demoExt (copiedState brokenTree)
        = Outcome.fatal Fatal.couldNotParsePatchFile st2 ∧
      st2.pushTree
        = (srpmPatchEntries demoExt ["0001-fix.patch"] (copiedState brokenTree)).state.pushTree ∧
      st2.pushTree.Filesystem.files "SOURCES/foo.c" = some "int x;+common;" ∧
      st2.pushTree.index "SOURCES/foo.c" = some Mark.added ∧
      st2.pushTree.index "ROCKY/SRPM/0001-fix.patch" = some Mark.added ∧
      st2.log = ["applying 0001-fix.patch", "git add SOURCES/foo.c",
        "git add ROCKY/SRPM/0001-fix.patch", "applying 0002-bad.patch"] :=
  ⟨by decide, by decide, by decide, by decide, by decide, by decide, by decide,
    let ⟨st2, h1, h2, _, h4⟩ :=
      parse_failure_is_fatal_after_earlier_files demoExt (copiedState brokenTree)
        (srpmPatchEntries demoExt ["0001-fix.patch"] (copiedState brokenTree)).state
        ["0001-fix.patch"] ["0003-late.patch"] "0002-bad.patch" "garbage"
        (by decide) (by decide) rfl (by decide) (by decide) (by decide)
    ⟨st2, h1, h2, by rw [h2]; decide, by rw [h2]; decide, by rw [h2]; decide,
      by rw [h4]; decide⟩⟩

/-! ### The two scopes -/

/-- C7: when the fetch succeeds and the branch-specific reference checks out,
(1) if the common reference checks out too, `executePatches` is the overlay of
the common scope followed, on the state it leaves, by the overlay of the
branch scope; (2) in that case, when both overlays are processed to
completion, and in each scope exactly one record touches the destination path
`p`, a modification of `p`, and the directive engine leaves `p` alone, then `p`
ends up holding the branch patch's applier output for the common patch's
applier output for the original content, whatever other patch files, records
and directives the scopes hold; (3) if the common checkout fails, only that
scope is skipped: the run is the branch overlay on the untouched destination
tree. -/
theorem common_overlay_then_branch_overlay (ext : Externals) (git : Git) (pd : ProcessData)
    (md : ModeData) (refs : String → Option Filesystem) (wb : Worktree)
    (hinit : git.initOk = true) (hwt : git.worktreeOk = true)
    (hremote : git.createRemoteOk = true)
    (hfetch : git.fetch (pd.UpstreamPrefix ++ "/patch/" ++ md.rpmFileName ++ ".git")
      = some refs)
    (hbranch : checkout refs (newRemoteReferenceName "origin" md.pushBranch) = some wb) :
    (∀ wc, checkout refs (newRemoteReferenceName "origin" "master") = some wc →
      executePatches ext git pd md =
        (applyPatches ext { checkoutState md with patchTree := wc }).andThen
          fun st2 => applyPatches ext { st2 with patchTree := wb }) ∧
    (∀ wc st2 st3 preC fc postC preB fb postB p c c1 c2,
      checkout refs (newRemoteReferenceName "origin" "master") = some wc →
      applyPatches ext { checkoutState md with patchTree := wc } = Outcome.done st2 →
      applyPatches ext { st2 with patchTree := wb } = Outcome.done st3 →
      scopeRecords ext wc.Filesystem = preC ++ fc :: postC →
      (∀ g ∈ preC ++ postC, touches g p = false) →
      scopeRecords ext wb.Filesystem = preB ++ fb :: postB →
      (∀ g ∈ preB ++ postB, touches g p = false) →
      fc.IsNew = false → fc.IsDelete = false → resolvePath fc.NewName = p →
      fb.IsNew = false → fb.IsDelete = false → resolvePath fb.NewName = p →
      (∀ cfg s, (ext.directivesApply cfg s).state.pushTree.Filesystem.files p
        = s.pushTree.Filesystem.files p) →
      md.worktree.Filesystem.files p = some c →
      ext.applyFile c fc = some c1 → ext.applyFile c1 fb = some c2 →
      executePatches ext git pd md = Outcome.done st3 ∧
        st2.pushTree.Filesystem.files p = some c1 ∧
        st3.pushTree.Filesystem.files p = some c2) ∧
    (checkout refs (newRemoteReferenceName "origin" "master") = none →
      executePatches ext git pd md =
        applyPatches ext
          { (checkoutState md).printf "info: no common patches found" with patchTree := wb } ∧
      ({ (checkoutState md).printf "info: no common patches found" with
          patchTree := wb } : State).pushTree = md.worktree) := by
  have hboth : ∀ wc, checkout refs (newRemoteReferenceName "origin" "master") = some wc →
      executePatches ext git pd md =
        (applyPatches ext { checkoutState md with patchTree := wc }).andThen
          fun st2 => applyPatches ext { st2 with patchTree := wb } := by
    intro wc hc
    unfold executePatches
    simp only [hinit, hwt, hremote, hfetch, hc, hbranch, Bool.not_true, Bool.false_eq_true,
      if_false]
    rfl
  refine ⟨hboth, ?_, ?_⟩
  · intro wc st2 st3 preC fc postC preB fb postB p c c1 c2 hc hrunC hrunB hrecC hothersC
      hrecB hothersB hcNew hcDel hpc hbNew hbDel hpb hcfg hfile h1 h2
    have hfileC : (State.pushTree { checkoutState md with patchTree := wc }).Filesystem.files p
        = some c := hfile
    have hst2 : st2.pushTree.Filesystem.files p = some c1 := by
      rw [applyPatches_files ext p hcfg _ st2 hrunC, hfileC]
      show (scopeRecords ext wc.Filesystem).foldl _ (some c) = some c1
      rw [hrecC, foldl_stepAt_single ext p preC postC fc c hothersC hcNew hcDel hpc, h1]
    have hst3 : st3.pushTree.Filesystem.files p = some c2 := by
      rw [applyPatches_files ext p hcfg _ st3 hrunB]
      show (scopeRecords ext wb.Filesystem).foldl _ (st2.pushTree.Filesystem.files p) = some c2
      rw [hst2, hrecB, foldl_stepAt_single ext p preB postB fb c1 hothersB hbNew hbDel hpb, h2]
    refine ⟨?_, hst2, hst3⟩
    rw [hboth wc hc, hrunC, andThen_done, hrunB]
  · intro hc
    refine ⟨?_, rfl⟩
    unfold executePatches
    simp only [hinit, hwt, hremote, hfetch, hc, hbranch, Bool.not_true, Bool.false_eq_true,
      if_false]
    rfl

/-- C7 at concrete inputs.  The destination tree holds copies of the patch
files, so that staging them succeeds.  The common scope has two patch files, an
entry that is no patch file and a directive; the branch scope has one patch
file with two records.  Both scopes modify `SOURCES/foo.c`.  In a second run
the fetch brings in the branch scope only. -/
theorem common_overlay_then_branch_overlay_witness :
    scopeRecords demoExt richCommonTree = [addNew] ++ modFoo :: [] ∧
    scopeRecords demoExt richBranchTree = [modSpec] ++ modFooBranch :: [] ∧
    demoMd.worktree.Filesystem.files "SOURCES/foo.c" = some "int x;" ∧
    demoExt.applyFile "int x;" modFoo = some "int x;+common;" ∧
    demoExt.applyFile "int x;+common;" modFooBranch = some "int x;+common;+branch;" ∧
    (applyPatches demoExt
      { checkoutState demoMd with patchTree := checkedOut richCommonTree }).isDone = true ∧
    (executePatches demoExt demoGit demoPd demoMd).isDone = true ∧
    (executePatches demoExt demoGit demoPd demoMd).state.pushTree.Filesystem.files
      "SOURCES/foo.c" = some "int x;+common;+branch;" ∧
    (executePatches demoExt demoGit demoPd demoMd).state.log
      = ["set reference to ref: refs/heads/r8", "applying 0000-add.patch",
         "git add SOURCES/new.c", "git add ROCKY/SRPM/0000-add.patch",
         "applying 0001-fix.patch", "git add SOURCES/foo.c",
         "git add ROCKY/SRPM/0001-fix.patch", "applying directive unused.cfg",
         "applying 0002-branch.patch", "git add SPECS/foo.spec", "git add SOURCES/foo.c",
         "git add ROCKY/SRPM/0002-branch.patch"] ∧
    executePatches demoExt demoGitBranchOnly demoPd demoMd =
      applyPatches demoExt
        { (checkoutState demoMd).printf "info: no common patches found" with
          patchTree := checkedOut richBranchTree } ∧
    (executePatches demoExt demoGitBranchOnly demoPd demoMd).isDone = true ∧
    (executePatches demoExt demoGitBranchOnly demoPd demoMd).state.pushTree.Filesystem.files
      "SOURCES/foo.c" = some "int x;+branch;" :=
  have hrun :=
    (common_overlay_then_branch_overlay demoExt demoGit demoPd demoMd demoRefs
      (checkedOut richBranchTree) rfl rfl rfl rfl rfl).2.1
      (checkedOut richCommonTree)
      (applyPatches demoExt
        { checkoutState demoMd with patchTree := checkedOut richCommonTree }).state
      (applyPatches demoExt
        { (applyPatches demoExt
            { checkoutState demoMd with patchTree := checkedOut richCommonTree }).state with
          patchTree := checkedOut richBranchTree }).state
      [addNew] modFoo [] [modSpec] modFooBranch [] "SOURCES/foo.c"
      "int x;" "int x;+common;" "int x;+common;+branch;"
      rfl rfl rfl (by decide) (by decide) (by decide) (by decide)
      rfl rfl (by decide) rfl rfl (by decide) (fun _ _ => rfl)
      (by decide) (by decide) (by decide)
  ⟨by decide, by decide, by decide, by decide, by decide, by decide,
    by rw [hrun.1]; rfl,
    by rw [hrun.1]; exact hrun.2.2,
    by decide,
    ((common_overlay_then_branch_overlay demoExt demoGitBranchOnly demoPd demoMd
      branchOnlyRefs (checkedOut richBranchTree) rfl rfl rfl rfl rfl).2.2 rfl).1,
    by decide, by decide⟩

end Srpmproc
